/-
Verification of the `jump` repository's trailer locator (`end_of_zip` in
`src/jmp.rs`), the `ArchiveType` string codec and manifest data model
(`src/jmp.rs`), and the archive packer (`jump/src/pack.rs`), via a shallow
embedding in Lean 4.

Bytes are modelled as `Nat`; byte buffers as `List Nat`.  Fallible Rust code
returning `Result` is modelled with an explicit result type; a Rust `panic!`
(out-of-bounds slice, `todo!`) is modelled as a distinguished `panic`
constructor, since it is not an error value.
-/
import Mathlib

/-! ## Trailer locator (`end_of_zip`, src/jmp.rs lines 162-211) -/

/-- The EOCD signature bytes in forward (file) order: `0x50 0x4b 0x05 0x06`. -/
def SIG_FWD : List Nat := [0x50, 0x4b, 0x05, 0x06]

/-- Rust `const EOCD_SIGNATURE: (&u8, &u8, &u8, &u8) = (&0x06, &0x05, &0x4b, &0x50)`:
the signature in the byte order seen by the reverse iterator. -/
def EOCD_SIGNATURE : List Nat := [0x06, 0x05, 0x4b, 0x50]

/-- Models `data.iter().rev().take(max_scan).tuple_windows::<(_,_,_,_)>().position(|c| SIG == c)`:
the scan over the (already reversed and truncated) byte list.  A window with fewer
than four bytes can never equal the four-byte signature, matching `tuple_windows`,
which yields no such window. -/
def sigScan : List Nat → Nat → Option Nat
  | [], _ => none
  | b :: rest, p =>
    if List.take 4 (b :: rest) = EOCD_SIGNATURE then some p
    else sigScan rest (p + 1)

/-- Little-endian 16-bit field of `l` at byte offset `i` (an `H` field of
`structure!("<HHHHIIH")`). -/
def le16at (l : List Nat) (i : Nat) : Nat :=
  l.getD i 0 + 256 * l.getD (i + 1) 0

/-- Little-endian 32-bit field of `l` at byte offset `i` (an `I` field of
`structure!("<HHHHIIH")`). -/
def le32at (l : List Nat) (i : Nat) : Nat :=
  l.getD i 0 + 256 * l.getD (i + 1) 0 + 65536 * l.getD (i + 2) 0
    + 16777216 * l.getD (i + 3) 0

/-- The seven fields unpacked by `eocd_struct.unpack` from the 18 bytes that follow
the 4-byte EOCD signature. -/
structure EocdRecord where
  disk_no : Nat
  cd_disk_no : Nat
  disk_cd_record_count : Nat
  total_cd_record_count : Nat
  cd_size : Nat
  cd_offset : Nat
  zip_comment_size : Nat
deriving DecidableEq

/-- Models `structure!("<HHHHIIH").unpack(slice)` on an exactly-18-byte slice (the only
length with which the source ever reaches it; on an 18-byte input the unpack
cannot fail, so its error branch is dead code). -/
def unpackEocd (slice : List Nat) : EocdRecord :=
  { disk_no := le16at slice 0
    cd_disk_no := le16at slice 2
    disk_cd_record_count := le16at slice 4
    total_cd_record_count := le16at slice 6
    cd_size := le32at slice 8
    cd_offset := le32at slice 12
    zip_comment_size := le16at slice 16 }

/-- The error message built when no signature is found in the scanned window. -/
def nceError (max_scan : Nat) : String :=
  "Failed to find application zip end of central directory record within the last "
    ++ toString max_scan ++ " bytes of the file. Invalid NCE."

/-- Outcome of `end_of_zip`: a returned offset, a returned error value, or a Rust
panic (which is not a returned value at all). -/
inductive ZipResult where
  | ok (offset : Nat)
  | err (msg : String)
  | panic
deriving DecidableEq

/-- Models `pub fn end_of_zip(data: &[u8], maximum_trailer_size: usize) -> Result<usize, String>`.
The slice expression `&data[eocd_start..eocd_end]` panics when `eocd_end`
exceeds `data.len()`; that is modelled by the `panic` branch.  (`eocd_start` never
exceeds `data.len()`: a found window position is at most `data.len() - 4`.) -/
def end_of_zip (data : List Nat) (maximum_trailer_size : Nat) : ZipResult :=
  let eocd_size := 18
  let maximum_eocd_size := eocd_size + 0xFFFF
  let max_scan := maximum_eocd_size + maximum_trailer_size
  match sigScan (List.take max_scan data.reverse) 0 with
  | none => ZipResult.err (nceError max_scan)
  | some offset_from_eof =>
    let eocd_start := data.length - offset_from_eof
    let eocd_end := eocd_start + eocd_size
    if eocd_end ≤ data.length then
      ZipResult.ok
        (eocd_end + (unpackEocd (List.take eocd_size (List.drop eocd_start data))).zip_comment_size)
    else
      ZipResult.panic

/-- An empty zip archive: the EOCD signature followed by the 18 zero bytes of the
fixed fields (zero entries, empty central directory, zero-length comment). -/
def emptyZip : List Nat := SIG_FWD ++ List.replicate 18 0

/-! ## ArchiveType / Compression string codec (src/jmp.rs lines 28-104) -/

/-- Rust `pub enum Compression` (src/jmp.rs line 30). -/
inductive Compression where
  | Bzip2
  | Gzip
  | Lzma
  | Xz
  | Zlib
  | Zstd
deriving DecidableEq

/-- Rust `pub enum ArchiveType` (src/jmp.rs line 40). -/
inductive ArchiveType where
  | Zip
  | Tar
  | CompressedTar (compression : Compression)
deriving DecidableEq

/-- Models `impl Serialize for ArchiveType` (src/jmp.rs lines 46-62): the canonical string
form emitted for each variant. -/
def ArchiveType.serialize : ArchiveType → String
  | .Zip => "zip"
  | .Tar => "tar"
  | .CompressedTar .Bzip2 => "tar.bz2"
  | .CompressedTar .Gzip => "tar.gz"
  | .CompressedTar .Lzma => "tar.lzma"
  | .CompressedTar .Xz => "tar.xz"
  | .CompressedTar .Zlib => "tar.Z"
  | .CompressedTar .Zstd => "tar.zst"

/-- The `expecting` text of `ArchiveTypeVisitor` (src/jmp.rs lines 69-75). -/
def archiveTypeExpecting : String :=
  "one of: zip, tar, tbz2, tar.bz2, tgz, tar.gz, tlz, tar.lzma, tar.xz, tar.Z, tzst or tar.zst"

/-- The message of `serde::de::Error::invalid_value(Unexpected::Str(value), &self)`:
serde formats it as `invalid value: string "<value>", expected <expecting>`. -/
def invalidValueMsg (value : String) : String :=
  "invalid value: string \"" ++ value ++ "\", expected " ++ archiveTypeExpecting

/-- Models `ArchiveTypeVisitor::visit_str` (src/jmp.rs lines 77-94): the alias table from
strings to `ArchiveType`. -/
def visit_str (value : String) : Except String ArchiveType :=
  match value with
  | "zip" => .ok .Zip
  | "tar" => .ok .Tar
  | "tbz2" | "tar.bz2" => .ok (.CompressedTar .Bzip2)
  | "tgz" | "tar.gz" => .ok (.CompressedTar .Gzip)
  | "tlz" | "tar.lzma" => .ok (.CompressedTar .Lzma)
  | "tar.xz" => .ok (.CompressedTar .Xz)
  | "tar.Z" => .ok (.CompressedTar .Zlib)
  | "tzst" | "tar.zst" => .ok (.CompressedTar .Zstd)
  | _ => .error (invalidValueMsg value)

/-- The twelve accepted alias strings, in the order the visitor lists them. -/
def supportedTokens : List String :=
  ["zip", "tar", "tbz2", "tar.bz2", "tgz", "tar.gz", "tlz", "tar.lzma",
   "tar.xz", "tar.Z", "tzst", "tar.zst"]

/-- The alias table paired with the canonical serialized form of the variant each
alias decodes to (spec section 3). -/
def aliasCanonical : List (String × String) :=
  [("zip", "zip"), ("tar", "tar"), ("tbz2", "tar.bz2"), ("tar.bz2", "tar.bz2"),
   ("tgz", "tar.gz"), ("tar.gz", "tar.gz"), ("tlz", "tar.lzma"), ("tar.lzma", "tar.lzma"),
   ("tar.xz", "tar.xz"), ("tar.Z", "tar.Z"), ("tzst", "tar.zst"), ("tar.zst", "tar.zst")]

/-- Char-list matcher: does `pat` start `l`? -/
def prefChk : List Char → List Char → Bool
  | [], _ => true
  | _ :: _, [] => false
  | a :: as, b :: bs => a == b && prefChk as bs

/-- Char-list matcher: does `pat` occur contiguously anywhere in the second list? -/
def subChk (pat : List Char) : List Char → Bool
  | [] => prefChk pat []
  | c :: rest => prefChk pat (c :: rest) || subChk pat rest

/-! ## Manifest data model and its JSON codec (src/jmp.rs lines 9-160)

The Rust structs derive their (de)serializers through serde; the derived code is
generated by serde and is not part of the provided sources, so the deserializers
below are modelled from the spec (sections 3 and 4.2): field names, the `type`
tag, the flattened `Locator`, and the `#[serde(default)]` defaults.  `HashMap`
fields are modelled as association lists. -/

/-- A JSON value (the manifest is a JSON document). -/
inductive Json where
  | null
  | bool (b : Bool)
  | num (n : Int)
  | str (s : String)
  | arr (elems : List Json)
  | obj (fields : List (String × Json))

/-- Field lookup on a JSON object; anything else has no fields. -/
def Json.lookup (j : Json) (key : String) : Option Json :=
  match j with
  | .obj fields => fields.lookup key
  | _ => none

/-- Read a JSON value as a string. -/
def Json.asStr : Json → Except String String
  | .str s => .ok s
  | _ => .error "invalid type: expected a string"

/-- Read a JSON value as a boolean. -/
def Json.asBool : Json → Except String Bool
  | .bool b => .ok b
  | _ => .error "invalid type: expected a boolean"

/-- Read a JSON value as a non-negative integer (`usize`). -/
def Json.asNat : Json → Except String Nat
  | .num n => if n < 0 then .error "invalid value: negative integer" else .ok n.toNat
  | _ => .error "invalid type: expected an integer"

/-- Read a JSON value as an array of strings. -/
def Json.asStrList : Json → Except String (List String)
  | .arr es => es.mapM Json.asStr
  | _ => .error "invalid type: expected a sequence"

/-- Read a JSON value as a string-to-string mapping. -/
def Json.asStrMap : Json → Except String (List (String × String))
  | .obj fs => fs.mapM (fun p => (Json.asStr p.2).map (fun v => (p.1, v)))
  | _ => .error "invalid type: expected a map"

/-- A required field: serde fails deserialization when it is absent. -/
def reqField (j : Json) (key : String) : Except String Json :=
  match j.lookup key with
  | some v => .ok v
  | none => .error ("missing field " ++ key)

/-- Rust `pub enum HashAlgorithm` (src/jmp.rs line 11). -/
inductive HashAlgorithm where
  | Sha256
deriving DecidableEq

/-- Rust `pub struct Fingerprint` (src/jmp.rs line 16). -/
structure Fingerprint where
  algorithm : HashAlgorithm
  hash : String
deriving DecidableEq

/-- Rust `pub enum Locator` (src/jmp.rs line 23); paths are modelled as strings. -/
inductive Locator where
  | Size (bytes : Nat)
  | Entry (path : String)
deriving DecidableEq

/-- Rust `pub struct Blob` (src/jmp.rs line 113). -/
structure Blob where
  locator : Locator
  fingerprint : Fingerprint
  name : String
  always_extract : Bool
deriving DecidableEq

/-- Rust `pub struct Archive` (src/jmp.rs line 123). -/
structure Archive where
  locator : Locator
  fingerprint : Fingerprint
  archive_type : ArchiveType
  name : Option String
  always_extract : Bool
deriving DecidableEq

/-- Rust `pub enum File` (src/jmp.rs line 137). -/
inductive File where
  | archive (a : Archive)
  | blob (b : Blob)
deriving DecidableEq

/-- Rust `pub struct Cmd` (src/jmp.rs line 143); the `env` HashMap is modelled as an
association list. -/
structure Cmd where
  exe : String
  args : List String
  env : List (String × String)
  additional_files : List String
deriving DecidableEq

/-- Rust `pub struct Scie` (src/jmp.rs line 107); the root path is modelled as a string. -/
structure Scie where
  version : String
  root : String
deriving DecidableEq

/-- Rust `pub struct Config` (src/jmp.rs line 154); the `additional_commands` HashMap is
modelled as an association list. -/
structure Config where
  scie : Scie
  files : List File
  command : Cmd
  additional_commands : List (String × Cmd)
deriving DecidableEq

/-- Modelled from the spec: the serde deserializer for `HashAlgorithm`
(`rename_all = "lowercase"`). -/
def deserializeHashAlgorithm (j : Json) : Except String HashAlgorithm :=
  match j with
  | .str "sha256" => .ok .Sha256
  | _ => .error "unknown variant of HashAlgorithm"

/-- Modelled from the spec: the serde deserializer for `Fingerprint`; both fields
are required. -/
def deserializeFingerprint (j : Json) : Except String Fingerprint := do
  let a ← reqField j "algorithm" >>= deserializeHashAlgorithm
  let h ← reqField j "hash" >>= Json.asStr
  pure { algorithm := a, hash := h }

/-- Modelled from the spec: the flattened `Locator` (`rename_all = "lowercase"`,
`#[serde(flatten)]`): the `size` or `entry` key appears as a sibling of the other
fields of the surrounding object. -/
def deserializeLocator (j : Json) : Except String Locator :=
  match j.lookup "size" with
  | some v => (Json.asNat v).map Locator.Size
  | none =>
    match j.lookup "entry" with
    | some v => (Json.asStr v).map Locator.Entry
    | none => .error "missing field: size or entry"

/-- Modelled from the spec: the serde deserializer for `ArchiveType` delegates to
`ArchiveTypeVisitor::visit_str` (src/jmp.rs lines 97-104). -/
def deserializeArchiveType (j : Json) : Except String ArchiveType :=
  Json.asStr j >>= visit_str

/-- Modelled from the spec: the serde deserializer for `Blob`; `always_extract`
defaults to `false` (`#[serde(default)]`), the rest is required. -/
def deserializeBlob (j : Json) : Except String Blob := do
  let loc ← deserializeLocator j
  let fp ← reqField j "fingerprint" >>= deserializeFingerprint
  let nm ← reqField j "name" >>= Json.asStr
  let ae ← match j.lookup "always_extract" with
    | some v => Json.asBool v
    | none => pure false
  pure { locator := loc, fingerprint := fp, name := nm, always_extract := ae }

/-- Modelled from the spec: the serde deserializer for `Archive`; `name` defaults
to `none` and `always_extract` to `false` (`#[serde(default)]`), the rest is
required. -/
def deserializeArchive (j : Json) : Except String Archive := do
  let loc ← deserializeLocator j
  let fp ← reqField j "fingerprint" >>= deserializeFingerprint
  let at_ ← reqField j "archive_type" >>= deserializeArchiveType
  let nm ← match j.lookup "name" with
    | some v => (Json.asStr v).map some
    | none => pure none
  let ae ← match j.lookup "always_extract" with
    | some v => Json.asBool v
    | none => pure false
  pure { locator := loc, fingerprint := fp, archive_type := at_, name := nm,
         always_extract := ae }

/-- Modelled from the spec: the serde deserializer for `File`
(`#[serde(tag = "type")]`, lowercase tags, variant fields flattened alongside). -/
def deserializeFile (j : Json) : Except String File :=
  match j.lookup "type" with
  | some (.str "archive") => (deserializeArchive j).map File.archive
  | some (.str "blob") => (deserializeBlob j).map File.blob
  | some _ => .error "unknown variant of File"
  | none => .error "missing field type"

/-- Modelled from the spec: the serde deserializer for `Cmd`; `args`, `env` and
`additional_files` default to empty (`#[serde(default)]`), `exe` is required. -/
def deserializeCmd (j : Json) : Except String Cmd := do
  let exe ← reqField j "exe" >>= Json.asStr
  let args ← match j.lookup "args" with
    | some v => Json.asStrList v
    | none => pure []
  let env ← match j.lookup "env" with
    | some v => Json.asStrMap v
    | none => pure []
  let af ← match j.lookup "additional_files" with
    | some v => Json.asStrList v
    | none => pure []
  pure { exe := exe, args := args, env := env, additional_files := af }

/-- Modelled from the spec: the serde deserializer for `Scie`; both fields are
required. -/
def deserializeScie (j : Json) : Except String Scie := do
  let v ← reqField j "version" >>= Json.asStr
  let r ← reqField j "root" >>= Json.asStr
  pure { version := v, root := r }

/-- Modelled from the spec: the serde deserializer for `Config`;
`additional_commands` defaults to empty (`#[serde(default)]`), the rest is
required. -/
def deserializeConfig (j : Json) : Except String Config := do
  let sc ← reqField j "scie" >>= deserializeScie
  let fl ← reqField j "files" >>= fun v =>
    match v with
    | .arr es => es.mapM deserializeFile
    | _ => Except.error "invalid type: expected a sequence"
  let cmd ← reqField j "command" >>= deserializeCmd
  let ac ← match j.lookup "additional_commands" with
    | some (.obj fs) => fs.mapM (fun p => (deserializeCmd p.2).map (fun c => (p.1, c)))
    | some _ => .error "invalid type: expected a map"
    | none => pure []
  pure { scie := sc, files := fl, command := cmd, additional_commands := ac }

/-! ## Archive packer (jump/src/pack.rs)

File-system state is modelled explicitly: an association list from path strings
to entries.  The zip byte stream itself is produced by the external `zip` crate
and its byte-level format is outside the claims, so a created archive is recorded
as a file whose content is left empty; unix permission bits (external platform
API) and walk ordering are likewise not modelled.  A Rust `panic!` / `todo!` is a
distinguished result constructor, since the process aborts rather than returning. -/

/-- A model file-system entry. -/
inductive FsEntry where
  | dir
  | file (content : List Nat)
deriving DecidableEq

/-- A model file system: association list from absolute path to entry. -/
structure FileSystem where
  entries : List (String × FsEntry)
deriving DecidableEq

/-- Path lookup. -/
def FileSystem.lookup (fs : FileSystem) (p : String) : Option FsEntry :=
  fs.entries.lookup p

/-- Models `path.is_dir()`. -/
def FileSystem.isDir (fs : FileSystem) (p : String) : Bool :=
  fs.lookup p == some FsEntry.dir

/-- Creating a file adds it at the front of the entry list. -/
def FileSystem.insert (fs : FileSystem) (p : String) (e : FsEntry) : FileSystem :=
  ⟨(p, e) :: fs.entries⟩

/-- Models `dir.join(name)` for a relative `name`. -/
def pathJoin (dir name : String) : String :=
  dir ++ "/" ++ name

/-- Scanning the reversed characters of a path: drop the final component's
extension together with its dot (`some` of the rest), or `none` when a path
separator or the start of the string is reached before any dot. -/
def dropExtRev : List Char → Option (List Char)
  | [] => none
  | a :: rest =>
    if a == '.' then some rest
    else if a == '/' then none
    else dropExtRev rest

/-- Models `dir.with_extension("zip")`: drop an existing extension of the final path
component (the part after its last dot, when present), then append `.zip`. -/
def withZipExtension (p : String) : String :=
  let rev := p.data.reverse
  let stem := (dropExtRev rev).getD rev
  String.mk stem.reverse ++ ".zip"

/-- The os error text used by the model for a missing path. -/
def osNotFoundError : String := "No such file or directory (os error 2)"

/-- The os error text used by the model for `create_new` on an existing path. -/
def osExistsError : String := "File exists (os error 17)"

/-- Models `Path::canonicalize`: succeeds exactly on paths that exist.  (Symlink
resolution and absolutization, which need a real file system, are not modelled:
an existing path canonicalizes to itself.) -/
def canonicalize (fs : FileSystem) (p : String) : Except String String :=
  if (fs.lookup p).isSome then .ok p else .error osNotFoundError

/-- Modelled from the spec: `ArchiveType::as_ext` is declared outside the provided
source files; per spec section 3 it is the canonical extension token of the
variant (the same string the serializer emits). -/
def ArchiveType.as_ext : ArchiveType → String
  | .Zip => "zip"
  | .Tar => "tar"
  | .CompressedTar .Bzip2 => "tar.bz2"
  | .CompressedTar .Gzip => "tar.gz"
  | .CompressedTar .Lzma => "tar.lzma"
  | .CompressedTar .Xz => "tar.xz"
  | .CompressedTar .Zlib => "tar.Z"
  | .CompressedTar .Zstd => "tar.zst"

/-- The `{compression:?}` debug form used in the `todo!` message. -/
def Compression.debugStr : Compression → String
  | .Bzip2 => "Bzip2"
  | .Gzip => "Gzip"
  | .Lzma => "Lzma"
  | .Xz => "Xz"
  | .Zlib => "Zlib"
  | .Zstd => "Zstd"

/-- Outcome of the packer: a returned pair, a returned error value, or a Rust
panic (`todo!`), which aborts the process with the file system in the recorded
state. -/
inductive PackResult where
  | ok (path : String) (archive_type : ArchiveType) (fs : FileSystem)
  | err (msg : String) (fs : FileSystem)
  | panic (msg : String) (fs : FileSystem)
deriving DecidableEq

/-- Models `fn create_zip(dir: &Path) -> Result<PathBuf, String>` (jump/src/pack.rs
lines 30-92).  `OpenOptions::new().write(true).create_new(true)` fails when a
file already exists at `zip_path` and leaves it untouched; otherwise the walk of
the model file system succeeds and the finished archive is recorded at
`zip_path` (its byte content, produced by the external `zip` crate, is not
modelled). -/
def create_zip (fs : FileSystem) (dir : String) : Except String (String × FileSystem) :=
  let zip_path := withZipExtension dir
  if (fs.lookup zip_path).isSome then
    .error ("Failed to open " ++ zip_path ++ " for packing " ++ dir ++ " into: "
      ++ osExistsError)
  else
    .ok (zip_path, fs.insert zip_path (FsEntry.file []))

/-- Models `pub(crate) fn create_archive(dir, name, maybe_archive_type)` (jump/src/pack.rs
lines 95-132).  The `Tar` and `CompressedTar` arms execute `todo!(...)`, whose
panic message is `not yet implemented: ` followed by the formatted text. -/
def create_archive (fs : FileSystem) (dir name : String)
    (maybe_archive_type : Option ArchiveType) : PackResult :=
  let archive_type := maybe_archive_type.getD ArchiveType.Zip
  match canonicalize fs (pathJoin dir name) with
  | .error e =>
    .err ("Cannot create an " ++ archive_type.as_ext ++ " archive from " ++ name
      ++ ": Directory does not exist: " ++ e) fs
  | .ok directory =>
    if fs.isDir directory then
      match archive_type with
      | .Zip =>
        match create_zip fs directory with
        | .ok (path, fs2) => .ok path ArchiveType.Zip fs2
        | .error e => .err e fs
      | .Tar =>
        .panic ("not yet implemented: TODO(John Sirois): Implement tar archive "
          ++ "support for directories: cannot create archive for: " ++ directory) fs
      | .CompressedTar compression =>
        .panic ("not yet implemented: TODO(John Sirois): Implement tar "
          ++ compression.debugStr
          ++ " archive support for directories: cannot create archive for: "
          ++ directory) fs
    else
      .err ("Cannot create an " ++ archive_type.as_ext ++ " archive from " ++ name
        ++ ": " ++ directory ++ " is a file.") fs

/-! ### Lemmas about the reverse scan -/

lemma SIG_FWD_reverse : SIG_FWD.reverse = EOCD_SIGNATURE := by decide

/-- Lemma: `sigScan` returns the first window position whose four bytes are the signature. -/
lemma sigScan_some_of (l : List Nat) (k p : Nat)
    (hp : List.take 4 (List.drop p l) = EOCD_SIGNATURE)
    (hmin : ∀ q, q < p → List.take 4 (List.drop q l) ≠ EOCD_SIGNATURE) :
    sigScan l k = some (k + p) := by
  induction l generalizing k p with
  | nil =>
    rw [List.drop_nil] at hp
    simp [EOCD_SIGNATURE] at hp
  | cons b rest ih =>
    cases p with
    | zero =>
      rw [List.drop_zero] at hp
      simp [sigScan, hp]
    | succ p' =>
      have h0 : List.take 4 (b :: rest) ≠ EOCD_SIGNATURE := by
        have h1 := hmin 0 (Nat.succ_pos p')
        rwa [List.drop_zero] at h1
      rw [sigScan, if_neg h0]
      have hp2 : List.take 4 (List.drop p' rest) = EOCD_SIGNATURE := by
        rwa [List.drop_succ_cons] at hp
      have hmin2 : ∀ q, q < p' → List.take 4 (List.drop q rest) ≠ EOCD_SIGNATURE := by
        intro q hq
        have h2 := hmin (q + 1) (Nat.succ_lt_succ hq)
        rwa [List.drop_succ_cons] at h2
      rw [ih (k + 1) p' hp2 hmin2]
      congr 1
      omega

/-- If no window matches the signature, `sigScan` returns `none`. -/
lemma sigScan_none_of (l : List Nat) (k : Nat)
    (h : ∀ q, List.take 4 (List.drop q l) ≠ EOCD_SIGNATURE) :
    sigScan l k = none := by
  induction l generalizing k with
  | nil => rfl
  | cons b rest ih =>
    have h0 : List.take 4 (b :: rest) ≠ EOCD_SIGNATURE := by
      have h1 := h 0
      rwa [List.drop_zero] at h1
    rw [sigScan, if_neg h0]
    exact ih (k + 1) (fun q => by have h2 := h (q + 1); rwa [List.drop_succ_cons] at h2)

/-- A window of the truncated scan region, in terms of the untruncated region. -/
lemma window_take (l : List Nat) (m q : Nat) :
    List.take 4 (List.drop q (List.take m l)) = List.take (min 4 (m - q)) (List.drop q l) := by
  rw [List.drop_take, List.take_take]

lemma window_take_of_le (l : List Nat) (m q : Nat) (h : q + 4 ≤ m) :
    List.take 4 (List.drop q (List.take m l)) = List.take 4 (List.drop q l) := by
  rw [window_take]
  congr 1
  omega

/-- A window that the truncation cuts below four bytes can never be the signature. -/
lemma window_take_short (l : List Nat) (m q : Nat) (h : m < q + 4) :
    List.take 4 (List.drop q (List.take m l)) ≠ EOCD_SIGNATURE := by
  rw [window_take]
  intro hEq
  have hlen := congrArg List.length hEq
  simp only [List.length_take, EOCD_SIGNATURE, List.length_cons, List.length_nil] at hlen
  omega

/-- The success branch of `end_of_zip`, for a scan result that leaves at least 18
bytes after the signature. -/
lemma end_of_zip_eq_of_scan (data : List Nat) (mts q : Nat)
    (hscan : sigScan (List.take (18 + 0xFFFF + mts) data.reverse) 0 = some q)
    (hle : data.length - q + 18 ≤ data.length) :
    end_of_zip data mts
      = ZipResult.ok (data.length - q + 18
          + (unpackEocd (List.take 18 (List.drop (data.length - q) data))).zip_comment_size) := by
  simp only [end_of_zip, hscan]
  rw [if_pos hle]

/-- The failure branch of `end_of_zip`: an empty scan yields the NCE error. -/
lemma end_of_zip_eq_err_of_scan (data : List Nat) (mts : Nat)
    (hscan : sigScan (List.take (18 + 0xFFFF + mts) data.reverse) 0 = none) :
    end_of_zip data mts = ZipResult.err (nceError (18 + 0xFFFF + mts)) := by
  simp only [end_of_zip, hscan]

/-- The engine behind the positive claims: if `data` is anything (`P`), then the
EOCD signature, then 18 fixed bytes `F`, then a tail `R` (comment plus appended
data); if the window `18 + 0xFFFF + mts` reaches back to the signature; and if no
four-byte run closer to the end of the buffer equals the signature, then
`end_of_zip` returns the signature offset plus 22 plus the little-endian 16-bit
comment length stored at offset 16 of `F`. -/
lemma end_of_zip_found (P F R : List Nat) (mts : Nat)
    (hF : F.length = 18)
    (hwin : 22 + R.length ≤ 18 + 0xFFFF + mts)
    (hno : ∀ q, q < 18 + R.length →
      List.take 4 (List.drop q (P ++ SIG_FWD ++ F ++ R).reverse) ≠ EOCD_SIGNATURE) :
    end_of_zip (P ++ SIG_FWD ++ F ++ R) mts
      = ZipResult.ok (P.length + 22 + le16at F 16) := by
  have hrev : (P ++ SIG_FWD ++ F ++ R).reverse
      = R.reverse ++ (F.reverse ++ (EOCD_SIGNATURE ++ P.reverse)) := by
    simp [List.reverse_append, List.append_assoc, SIG_FWD_reverse]
  have hsig_at : List.take 4 (List.drop (18 + R.length) (P ++ SIG_FWD ++ F ++ R).reverse)
      = EOCD_SIGNATURE := by
    rw [hrev, ← List.append_assoc]
    have h1 : 18 + R.length = (R.reverse ++ F.reverse).length := by
      simp only [List.length_append, List.length_reverse, hF]
      omega
    rw [h1, List.drop_left]
    rw [show (4 : Nat) = EOCD_SIGNATURE.length from rfl, List.take_left]
  have hscan : sigScan (List.take (18 + 0xFFFF + mts) (P ++ SIG_FWD ++ F ++ R).reverse) 0
      = some (18 + R.length) := by
    have h0 := sigScan_some_of
      (List.take (18 + 0xFFFF + mts) (P ++ SIG_FWD ++ F ++ R).reverse) 0 (18 + R.length)
      (by rw [window_take_of_le _ _ _ (by omega)]
          exact hsig_at)
      (by intro q hq
          by_cases hc : q + 4 ≤ 18 + 0xFFFF + mts
          · rw [window_take_of_le _ _ _ hc]
            exact hno q hq
          · exact window_take_short _ _ _ (by omega))
    simpa using h0
  have hlen : (P ++ SIG_FWD ++ F ++ R).length = P.length + (22 + R.length) := by
    simp only [List.length_append, SIG_FWD, List.length_cons, List.length_nil, hF]
    omega
  rw [end_of_zip_eq_of_scan _ _ (18 + R.length) hscan (by omega)]
  have hstart : (P ++ SIG_FWD ++ F ++ R).length - (18 + R.length) = P.length + 4 := by
    omega
  rw [hstart]
  have hslice : List.take 18 (List.drop (P.length + 4) (P ++ SIG_FWD ++ F ++ R)) = F := by
    have h3 : P ++ SIG_FWD ++ F ++ R = (P ++ SIG_FWD) ++ (F ++ R) := by
      simp [List.append_assoc]
    rw [h3]
    have h4 : P.length + 4 = (P ++ SIG_FWD).length := by
      simp [SIG_FWD]
    rw [h4, List.drop_left, show (18 : Nat) = F.length from hF.symm, List.take_left]
  rw [hslice]
  have hfield : (unpackEocd F).zip_comment_size = le16at F 16 := rfl
  rw [hfield]

/-- No window that starts strictly inside a leading all-zeros block can be the
signature: its first byte is zero. -/
lemma no_sig_in_zero_prefix (l : List Nat) (n q : Nat) (hq : q < n) :
    List.take 4 (List.drop q (List.replicate n (0 : Nat) ++ l)) ≠ EOCD_SIGNATURE := by
  rw [List.drop_append_eq_append_drop, List.drop_replicate, List.length_replicate]
  have h1 : q - n = 0 := by omega
  rw [h1, List.drop_zero]
  obtain ⟨k, hk⟩ : ∃ k, n - q = k + 1 := ⟨n - q - 1, by omega⟩
  rw [hk, List.replicate_succ, List.cons_append]
  have h2 : List.take 4 ((0 : Nat) :: (List.replicate k 0 ++ l))
      = 0 :: List.take 3 (List.replicate k 0 ++ l) := rfl
  rw [h2]
  intro hEq
  simp [EOCD_SIGNATURE] at hEq

/-! ### C1: locating the appended blob after a structurally valid zip -/

/-- C1 (amended).  For a buffer `zip ++ blob` whose zip part ends in a well-formed
EOCD record — `P` is everything up to the EOCD signature, `F` its 18 fixed bytes
whose final little-endian 16-bit field equals the comment length, `C` the comment —
and an appended blob `T` of at most `maximum_trailer_size` bytes, `end_of_zip`
returns exactly the length of the zip bytes, PROVIDED (i) the four-byte signature
pattern does not recur closer to the end of the file than the true EOCD signature,
and (ii) `C.length + T.length + 4 ≤ 0xFFFF + maximum_trailer_size`: the code sizes
its window from the 18-byte fixed tail, not the 22-byte record, so the scan window
misses the true signature by up to 4 bytes when comment and trailer are both
maximal. -/
theorem end_of_zip_returns_zip_length (P F C T : List Nat) (mts : Nat)
    (hF : F.length = 18)
    (hfield : le16at F 16 = C.length)
    (ht : T.length ≤ mts)
    (hsize : C.length + T.length + 4 ≤ 0xFFFF + mts)
    (hno : ∀ q, q < 18 + (C.length + T.length) →
      List.take 4 (List.drop q (((P ++ SIG_FWD ++ F ++ C) ++ T).reverse)) ≠ EOCD_SIGNATURE) :
    end_of_zip ((P ++ SIG_FWD ++ F ++ C) ++ T) mts
      = ZipResult.ok (P ++ SIG_FWD ++ F ++ C).length := by
  have hassoc : (P ++ SIG_FWD ++ F ++ C) ++ T = P ++ SIG_FWD ++ F ++ (C ++ T) := by
    simp [List.append_assoc]
  have hlen2 : (P ++ SIG_FWD ++ F ++ C).length = P.length + 22 + C.length := by
    simp only [List.length_append, SIG_FWD, List.length_cons, List.length_nil, hF]
    try omega
  have hno2 : ∀ q, q < 18 + (C ++ T).length →
      List.take 4 (List.drop q (P ++ SIG_FWD ++ F ++ (C ++ T)).reverse) ≠ EOCD_SIGNATURE := by
    intro q hq
    have h5 := hno q (by simp only [List.length_append] at hq; exact hq)
    rwa [hassoc] at h5
  rw [hassoc, end_of_zip_found P F (C ++ T) mts hF
    (by simp only [List.length_append]; omega) hno2]
  rw [hfield, hlen2]

/-- C1 witness: a non-empty prefix `P` is not needed; a 1-byte comment, a 2-byte
blob and `maximum_trailer_size = 2`. -/
theorem end_of_zip_returns_zip_length_witness :
    end_of_zip ((([] : List Nat) ++ SIG_FWD ++ (List.replicate 16 0 ++ [1, 0]) ++ [7]) ++ [9, 9]) 2
      = ZipResult.ok 23 := by
  have h := end_of_zip_returns_zip_length [] (List.replicate 16 0 ++ [1, 0]) [7] [9, 9] 2
    (by decide) (by decide) (by decide) (by decide) (by decide)
  simpa using h

/-- C1 counterexample: a structurally valid (empty) zip followed by a 22-byte blob
that itself contains the EOCD signature pattern, within the allowed trailer size;
the reverse scan takes the match closest to end-of-file, which is inside the
blob, and returns 44 instead of the zip length 22. -/
theorem end_of_zip_spurious_signature_cex :
    end_of_zip (emptyZip ++ emptyZip) 22 = ZipResult.ok 44
      ∧ end_of_zip (emptyZip ++ emptyZip) 22 ≠ ZipResult.ok 22 := by decide

/-! ### C2: failure when the blob outgrows the scan window -/

/-- C2 (amended).  `end_of_zip` fails with the `Invalid NCE` signature-not-found
error only once the comment plus blob reach past the scan window — that is, when
`C.length + T.length + 4 > 0xFFFF + maximum_trailer_size` (and the signature
pattern does not recur in the scanned tail).  A blob merely larger than
`maximum_trailer_size` is still located (see the counterexample): the window
always includes a full `0xFFFF` of slack reserved for the comment. -/
theorem end_of_zip_window_miss_err (P F C T : List Nat) (mts : Nat)
    (hF : F.length = 18)
    (hsize : 0xFFFF + mts ≤ C.length + T.length + 3)
    (hno : ∀ q, q < 18 + (C.length + T.length) →
      List.take 4 (List.drop q (((P ++ SIG_FWD ++ F ++ C) ++ T).reverse)) ≠ EOCD_SIGNATURE) :
    end_of_zip ((P ++ SIG_FWD ++ F ++ C) ++ T) mts
      = ZipResult.err (nceError (18 + 0xFFFF + mts)) := by
  apply end_of_zip_eq_err_of_scan
  apply sigScan_none_of
  intro q
  by_cases hc : q + 4 ≤ 18 + 0xFFFF + mts
  · rw [window_take_of_le _ _ _ hc]
    exact hno q (by omega)
  · exact window_take_short _ _ _ (by omega)

/-- C2 witness: with `maximum_trailer_size = 0` and an all-zeros 65532-byte blob
(no comment), the signature lies just outside the scan window and the NCE error
is returned. -/
theorem end_of_zip_window_miss_err_witness :
    end_of_zip ((([] : List Nat) ++ SIG_FWD ++ List.replicate 18 0 ++ []) ++ List.replicate 65532 0) 0
      = ZipResult.err (nceError (18 + 0xFFFF + 0)) := by
  apply end_of_zip_window_miss_err [] (List.replicate 18 0) [] (List.replicate 65532 0) 0
  · simp
  · rw [List.length_nil, List.length_replicate]
  · intro q hq
    rw [List.length_nil, List.length_replicate] at hq
    have hdata : (([] : List Nat) ++ SIG_FWD ++ List.replicate 18 0 ++ [])
          ++ List.replicate 65532 0
        = SIG_FWD ++ List.replicate 65550 0 := by
      simp only [List.nil_append, List.append_nil, List.append_assoc, ← List.replicate_add]
    rw [hdata, List.reverse_append, List.reverse_replicate, SIG_FWD_reverse]
    exact no_sig_in_zero_prefix EOCD_SIGNATURE 65550 q (by omega)

/-- C2 counterexample: a 1-byte blob appended to an empty zip with
`maximum_trailer_size = 0` exceeds the allowed trailer size, yet `end_of_zip`
does not fail: it still finds the signature (the window keeps `0xFFFF` of
comment slack) and returns offset 22. -/
theorem end_of_zip_oversize_blob_cex :
    end_of_zip (emptyZip ++ [0]) 0 = ZipResult.ok 22
      ∧ end_of_zip (emptyZip ++ [0]) 0 ≠ ZipResult.err (nceError 65553) := by decide

/-! ### C3: the returned offset is determined by the comment-length field alone -/

/-- C3.  Whenever the reverse scan finds the EOCD signature (the hypotheses say:
the four bytes after `P` are the signature, no match lies closer to end-of-file,
and the window reaches it) and at least 18 bytes follow the signature (`F`, plus
any tail `R`), `end_of_zip` returns `signature_offset + 22 + comment_length`,
where `comment_length` is the little-endian 16-bit value of bytes 16 and 17 of
`F` — the first sixteen bytes of `F` (the other six parsed fields) do not affect
the result. -/
theorem end_of_zip_offset_formula (P F R : List Nat) (mts : Nat)
    (hF : F.length = 18)
    (hwin : 22 + R.length ≤ 18 + 0xFFFF + mts)
    (hno : ∀ q, q < 18 + R.length →
      List.take 4 (List.drop q (P ++ SIG_FWD ++ F ++ R).reverse) ≠ EOCD_SIGNATURE) :
    end_of_zip (P ++ SIG_FWD ++ F ++ R) mts
      = ZipResult.ok (P.length + 22 + (F.getD 16 0 + 256 * F.getD 17 0)) :=
  end_of_zip_found P F R mts hF hwin hno

/-- C3 witness: garbage (nonzero) fixed fields in the first 16 bytes do not
change the result; the comment length bytes are zero, so the offset is
`2 + 22 + 0 = 24`. -/
theorem end_of_zip_offset_formula_witness :
    end_of_zip ([1, 2] ++ SIG_FWD ++ (List.replicate 16 5 ++ [0, 0]) ++ []) 0
      = ZipResult.ok 24 := by
  have h := end_of_zip_offset_formula [1, 2] (List.replicate 16 5 ++ [0, 0]) [] 0
    (by decide) (by decide) (by decide)
  simpa using h

/-! ### C4: fewer than 18 bytes after the signature -/

/-- C4.  The spec says a buffer too short to unpack the fixed EOCD fields yields a
propagated parse error value; the code instead evaluates `&data[eocd_start..eocd_end]`
with `eocd_end > data.len()` and panics.  On the 4-byte buffer holding just the
signature, `end_of_zip` reaches the slice with `eocd_start = 4`, `eocd_end = 22`
and panics rather than returning an error. -/
theorem end_of_zip_short_eocd_panics :
    end_of_zip [0x50, 0x4b, 0x05, 0x06] 0 = ZipResult.panic := by decide

/-! ### C6: ArchiveType round trips -/

/-- C6.  `deserialize(serialize(x)) = x` for every `ArchiveType` value, and every
accepted alias string decodes to the variant whose canonical serialized form is
the long form paired with it in `aliasCanonical`; decoding that canonical form
yields the same variant again, so the serialize/deserialize round trip is stable
on repetition. -/
theorem archive_type_round_trip :
    (∀ x : ArchiveType, visit_str (ArchiveType.serialize x) = Except.ok x) ∧
    (∀ p, p ∈ aliasCanonical → ∃ x : ArchiveType,
      visit_str p.1 = Except.ok x ∧ ArchiveType.serialize x = p.2
        ∧ visit_str p.2 = Except.ok x) := by
  constructor
  · intro x
    cases x with
    | Zip => rfl
    | Tar => rfl
    | CompressedTar c => cases c <;> rfl
  · intro p hp
    fin_cases hp <;> exact ⟨_, rfl, rfl, rfl⟩

/-- C6 witness: the short alias `tbz2` decodes to a variant that serializes
canonically to `tar.bz2` and decodes back to the same variant. -/
theorem archive_type_round_trip_witness :
    ∃ x : ArchiveType, visit_str "tbz2" = Except.ok x
      ∧ ArchiveType.serialize x = "tar.bz2" ∧ visit_str "tar.bz2" = Except.ok x :=
  archive_type_round_trip.2 ("tbz2", "tar.bz2") (by decide)

/-! ### C7: unknown archive-type strings are rejected with an enumerating error -/

/-- If the pattern occurs in `l`, it occurs in `x ++ l`. -/
lemma subChk_append_right (x l pat : List Char) (h : subChk pat l = true) :
    subChk pat (x ++ l) = true := by
  induction x with
  | nil => simpa using h
  | cons a as ih =>
    rw [List.cons_append]
    simp only [subChk]
    simp [ih]

/-- C7.  Every string outside the alias table fails deserialization with the
serde `invalid value` error; its message ends with the visitor expecting text,
which contains each of the twelve supported tokens (containment stated via the
executable matcher `subChk`). -/
theorem archive_type_unknown_rejected (s : String) (hs : s ∉ supportedTokens) :
    visit_str s = Except.error (invalidValueMsg s)
      ∧ ∀ t, t ∈ supportedTokens → subChk t.data (invalidValueMsg s).data = true := by
  constructor
  · unfold visit_str
    split <;> first
      | rfl
      | exact absurd (by decide) hs
  · intro t ht
    have hexp : subChk t.data archiveTypeExpecting.data = true := by
      fin_cases ht <;> decide
    have h1 : invalidValueMsg s
        = ("invalid value: string \"" ++ s ++ "\", expected ") ++ archiveTypeExpecting := rfl
    rw [h1, String.data_append]
    exact subChk_append_right _ _ _ hexp

/-- C7 witness: `rar` is rejected with the enumerating message; in particular the
token `tar.lzma` occurs in the message text. -/
theorem archive_type_unknown_rejected_witness :
    visit_str "rar" = Except.error (invalidValueMsg "rar")
      ∧ subChk "tar.lzma".data (invalidValueMsg "rar").data = true :=
  ⟨(archive_type_unknown_rejected "rar" (by decide)).1,
   (archive_type_unknown_rejected "rar" (by decide)).2 "tar.lzma" (by decide)⟩

/-! ### C8: omitted optional manifest fields deserialize to the documented defaults -/

/-- C8.  A manifest object omitting every optional field deserializes with the
documented defaults: `always_extract = false` (Blob and Archive), `name = none`
(Archive), `args`, `env`, `additional_files` empty (Cmd), `additional_commands`
empty (Config); required fields must be present (a `Cmd` object without `exe`
fails).  Anonymous constructors list the fields in declaration order. -/
theorem manifest_optional_field_defaults :
    (∀ exe, deserializeCmd (Json.obj [("exe", Json.str exe)])
      = Except.ok ⟨exe, [], [], []⟩)
    ∧ (∀ (sz : Nat) h nm, deserializeBlob (Json.obj
        [("size", Json.num sz),
         ("fingerprint", Json.obj [("algorithm", Json.str "sha256"), ("hash", Json.str h)]),
         ("name", Json.str nm)])
      = Except.ok ⟨Locator.Size sz, ⟨HashAlgorithm.Sha256, h⟩, nm, false⟩)
    ∧ (∀ (sz : Nat) h, deserializeArchive (Json.obj
        [("size", Json.num sz),
         ("fingerprint", Json.obj [("algorithm", Json.str "sha256"), ("hash", Json.str h)]),
         ("archive_type", Json.str "zip")])
      = Except.ok ⟨Locator.Size sz, ⟨HashAlgorithm.Sha256, h⟩, ArchiveType.Zip, none, false⟩)
    ∧ (∀ ver root (sz : Nat) h nm exe, deserializeConfig (Json.obj
        [("scie", Json.obj [("version", Json.str ver), ("root", Json.str root)]),
         ("files", Json.arr [Json.obj
           [("type", Json.str "blob"), ("size", Json.num sz),
            ("fingerprint", Json.obj [("algorithm", Json.str "sha256"), ("hash", Json.str h)]),
            ("name", Json.str nm)]]),
         ("command", Json.obj [("exe", Json.str exe)])])
      = Except.ok ⟨⟨ver, root⟩,
          [File.blob ⟨Locator.Size sz, ⟨HashAlgorithm.Sha256, h⟩, nm, false⟩],
          ⟨exe, [], [], []⟩, []⟩)
    ∧ deserializeCmd (Json.obj []) = Except.error "missing field exe" := by
  refine ⟨fun exe => rfl, fun sz h nm => ?_, fun sz h => ?_, fun ver root sz h nm exe => ?_, rfl⟩
  · have hnn : ¬((sz : Int) < 0) := by omega
    simp [deserializeBlob, deserializeLocator, Json.lookup, List.lookup, Json.asNat,
      reqField, deserializeFingerprint, deserializeHashAlgorithm, Json.asStr, hnn,
      Int.toNat_natCast]
    rfl
  · have hnn : ¬((sz : Int) < 0) := by omega
    simp [deserializeArchive, deserializeLocator, Json.lookup, List.lookup, Json.asNat,
      reqField, deserializeFingerprint, deserializeHashAlgorithm, Json.asStr,
      deserializeArchiveType, visit_str, hnn, Int.toNat_natCast]
    rfl
  · have hnn : ¬((sz : Int) < 0) := by omega
    simp [deserializeConfig, deserializeScie, deserializeFile, deserializeBlob,
      deserializeLocator, Json.lookup, List.lookup, Json.asNat, reqField,
      deserializeFingerprint, deserializeHashAlgorithm, Json.asStr, deserializeCmd, hnn,
      Int.toNat_natCast]
    rfl

/-! ### Packer lemmas -/

lemma isDir_lookup (fs : FileSystem) (p : String) (h : fs.isDir p = true) :
    fs.lookup p = some FsEntry.dir := by
  unfold FileSystem.isDir at h
  simpa using h

lemma canonicalize_of_isDir (fs : FileSystem) (p : String) (h : fs.isDir p = true) :
    canonicalize fs p = Except.ok p := by
  unfold canonicalize
  rw [isDir_lookup fs p h]
  rfl

lemma canonicalize_ok_inv (fs : FileSystem) (p d : String)
    (h : canonicalize fs p = Except.ok d) :
    d = p ∧ (fs.lookup p).isSome = true := by
  unfold canonicalize at h
  by_cases hs : (fs.lookup p).isSome = true
  · rw [if_pos hs] at h
    injection h with h1
    exact ⟨h1.symm, hs⟩
  · rw [if_neg hs] at h
    simp at h

lemma lookup_insert_self (fs : FileSystem) (p : String) (e : FsEntry) :
    (fs.insert p e).lookup p = some e := by
  simp [FileSystem.insert, FileSystem.lookup, List.lookup]

lemma lookup_insert_ne (fs : FileSystem) (p q : String) (e : FsEntry) (h : q ≠ p) :
    (fs.insert p e).lookup q = fs.lookup q := by
  have hb : (q == p) = false := beq_eq_false_iff_ne.mpr h
  simp [FileSystem.insert, FileSystem.lookup, List.lookup, hb]

/-! ### C5: unimplemented archive types panic rather than return an error value -/

/-- C5 (amended).  On an existing directory, `create_archive` with `Tar` or
`CompressedTar` reaches the `todo!` arm: it panics with a `not yet implemented`
message — a process-aborting panic, not a returned error value — and produces no
archive output (the file system at the abort is exactly the one passed in).  The
claim that every failure is returned as an error value fails on these arms; see
the counterexample. -/
theorem create_archive_todo_panics (fs : FileSystem) (dir name : String)
    (hdir : fs.isDir (pathJoin dir name) = true) :
    create_archive fs dir name (some ArchiveType.Tar)
      = PackResult.panic ("not yet implemented: TODO(John Sirois): Implement tar archive "
          ++ "support for directories: cannot create archive for: " ++ pathJoin dir name) fs
    ∧ ∀ c, create_archive fs dir name (some (ArchiveType.CompressedTar c))
      = PackResult.panic ("not yet implemented: TODO(John Sirois): Implement tar "
          ++ Compression.debugStr c
          ++ " archive support for directories: cannot create archive for: "
          ++ pathJoin dir name) fs := by
  have hcan := canonicalize_of_isDir fs (pathJoin dir name) hdir
  constructor
  · simp [create_archive, hcan, hdir]
  · intro c
    simp [create_archive, hcan, hdir]

/-- C5 witness: a file system holding the directory `/w/app`. -/
theorem create_archive_todo_panics_witness :
    create_archive ⟨[("/w/app", FsEntry.dir)]⟩ "/w" "app" (some ArchiveType.Tar)
      = PackResult.panic ("not yet implemented: TODO(John Sirois): Implement tar archive "
          ++ "support for directories: cannot create archive for: " ++ pathJoin "/w" "app")
          ⟨[("/w/app", FsEntry.dir)]⟩
    ∧ create_archive ⟨[("/w/app", FsEntry.dir)]⟩ "/w" "app"
        (some (ArchiveType.CompressedTar Compression.Gzip))
      = PackResult.panic ("not yet implemented: TODO(John Sirois): Implement tar "
          ++ Compression.debugStr Compression.Gzip
          ++ " archive support for directories: cannot create archive for: "
          ++ pathJoin "/w" "app") ⟨[("/w/app", FsEntry.dir)]⟩ :=
  ⟨(create_archive_todo_panics ⟨[("/w/app", FsEntry.dir)]⟩ "/w" "app" (by decide)).1,
   (create_archive_todo_panics ⟨[("/w/app", FsEntry.dir)]⟩ "/w" "app" (by decide)).2
     Compression.Gzip⟩

/-- C5 counterexample: on the existing directory `/base/x`, the `Tar` call does
not return an error value (a `PackResult.err`); it panics via `todo!`, which
aborts the process. -/
theorem create_archive_tar_not_error_value_cex :
    create_archive ⟨[("/base/x", FsEntry.dir)]⟩ "/base" "x" (some ArchiveType.Tar)
      = PackResult.panic ("not yet implemented: TODO(John Sirois): Implement tar archive "
          ++ "support for directories: cannot create archive for: /base/x")
          ⟨[("/base/x", FsEntry.dir)]⟩ := by
  decide

/-! ### C9: output at the zip sibling and no overwrite -/

/-- C9.  `create_archive` with `Zip` writes its output at the zip sibling of the
resolved source directory: (a) when something already exists at that path (and
the source directory is valid) the call returns the descriptive `Failed to open`
error and the file system — in particular the existing file — is unchanged;
(b) a successful call returns exactly that path with the new file recorded, and
a second call against the same source directory then fails with the
`Failed to open` error rather than overwriting, leaving the file system as the
first call left it. -/
theorem create_archive_no_overwrite :
    (∀ (fs : FileSystem) dir name,
      fs.isDir (pathJoin dir name) = true →
      (fs.lookup (withZipExtension (pathJoin dir name))).isSome = true →
      create_archive fs dir name (some ArchiveType.Zip)
        = PackResult.err ("Failed to open " ++ withZipExtension (pathJoin dir name)
            ++ " for packing " ++ pathJoin dir name ++ " into: " ++ osExistsError) fs)
    ∧ (∀ (fs fs2 : FileSystem) dir name p t,
      create_archive fs dir name (some ArchiveType.Zip) = PackResult.ok p t fs2 →
      p = withZipExtension (pathJoin dir name)
        ∧ fs2.lookup p = some (FsEntry.file [])
        ∧ create_archive fs2 dir name (some ArchiveType.Zip)
          = PackResult.err ("Failed to open " ++ p ++ " for packing " ++ pathJoin dir name
              ++ " into: " ++ osExistsError) fs2) := by
  constructor
  · intro fs dir name hdir hex
    have hcan := canonicalize_of_isDir fs (pathJoin dir name) hdir
    simp [create_archive, hcan, hdir, create_zip, hex]
  · intro fs fs2 dir name p t hok
    unfold create_archive at hok
    cases hcanE : canonicalize fs (pathJoin dir name) with
    | error e =>
      rw [hcanE] at hok
      simp at hok
    | ok d =>
      rw [hcanE] at hok
      obtain ⟨hd, hsome⟩ := canonicalize_ok_inv fs (pathJoin dir name) d hcanE
      subst hd
      simp only [Option.getD_some] at hok
      by_cases hdir : fs.isDir (pathJoin dir name) = true
      · rw [if_pos hdir] at hok
        simp only [create_zip] at hok
        by_cases hz : (fs.lookup (withZipExtension (pathJoin dir name))).isSome = true
        · rw [if_pos hz] at hok
          simp at hok
        · rw [if_neg hz] at hok
          simp only at hok
          injection hok with h1 h2 h3
          subst h1
          subst h2
          subst h3
          have hne : pathJoin dir name ≠ withZipExtension (pathJoin dir name) := by
            intro he
            rw [← he] at hz
            exact hz hsome
          have hlk2 : (fs.insert (withZipExtension (pathJoin dir name))
                (FsEntry.file [])).lookup (pathJoin dir name)
              = fs.lookup (pathJoin dir name) :=
            lookup_insert_ne fs (withZipExtension (pathJoin dir name)) (pathJoin dir name)
              (FsEntry.file []) hne
          have hdir2 : (fs.insert (withZipExtension (pathJoin dir name))
                (FsEntry.file [])).isDir (pathJoin dir name) = true := by
            unfold FileSystem.isDir
            rw [hlk2, isDir_lookup fs (pathJoin dir name) hdir]
            rfl
          have hcan2 := canonicalize_of_isDir
            (fs.insert (withZipExtension (pathJoin dir name)) (FsEntry.file []))
            (pathJoin dir name) hdir2
          have hz2 := lookup_insert_self fs (withZipExtension (pathJoin dir name))
            (FsEntry.file [])
          refine ⟨rfl, hz2, ?_⟩
          simp [create_archive, hcan2, hdir2, create_zip, hz2]
      · rw [if_neg hdir] at hok
        simp at hok

/-- C9 witness: with `/w/app` a directory and `/w/app.zip` already present, the
call fails and leaves the file system unchanged; starting instead from a file
system holding only the directory, the first call succeeds at `/w/app.zip` and
the second call fails. -/
theorem create_archive_no_overwrite_witness :
    (create_archive ⟨[("/w/app", FsEntry.dir), ("/w/app.zip", FsEntry.file [])]⟩ "/w" "app"
        (some ArchiveType.Zip)
      = PackResult.err ("Failed to open " ++ withZipExtension (pathJoin "/w" "app")
          ++ " for packing " ++ pathJoin "/w" "app" ++ " into: " ++ osExistsError)
          ⟨[("/w/app", FsEntry.dir), ("/w/app.zip", FsEntry.file [])]⟩)
    ∧ ("/w/app.zip" = withZipExtension (pathJoin "/w" "app")
        ∧ FileSystem.lookup ⟨[("/w/app.zip", FsEntry.file []), ("/w/app", FsEntry.dir)]⟩
            "/w/app.zip" = some (FsEntry.file [])
        ∧ create_archive ⟨[("/w/app.zip", FsEntry.file []), ("/w/app", FsEntry.dir)]⟩ "/w" "app"
            (some ArchiveType.Zip)
          = PackResult.err ("Failed to open " ++ "/w/app.zip" ++ " for packing "
              ++ pathJoin "/w" "app" ++ " into: " ++ osExistsError)
              ⟨[("/w/app.zip", FsEntry.file []), ("/w/app", FsEntry.dir)]⟩) :=
  ⟨create_archive_no_overwrite.1 ⟨[("/w/app", FsEntry.dir), ("/w/app.zip", FsEntry.file [])]⟩
      "/w" "app" (by decide) (by decide),
   create_archive_no_overwrite.2 ⟨[("/w/app", FsEntry.dir)]⟩
      ⟨[("/w/app.zip", FsEntry.file []), ("/w/app", FsEntry.dir)]⟩ "/w" "app"
      "/w/app.zip" ArchiveType.Zip (by decide)⟩

/-! ### C10: the archive-type parameter defaults to zip -/

/-- C10.  Passing `none` as the archive type is the same computation as passing
`some Zip`: identical results in every case (so identical validation error
messages and output paths); `as_ext` renders the defaulted type as `zip`, the
missing-directory validation error therefore names `zip`; and a successful
defaulted call resolves the archive type to `Zip`. -/
theorem create_archive_default_archive_type :
    (∀ (fs : FileSystem) dir name,
      create_archive fs dir name none = create_archive fs dir name (some ArchiveType.Zip))
    ∧ ArchiveType.as_ext ArchiveType.Zip = "zip"
    ∧ (∀ (fs : FileSystem) dir name,
      (fs.lookup (pathJoin dir name)).isSome = false →
      create_archive fs dir name none
        = PackResult.err ("Cannot create an " ++ ArchiveType.as_ext ArchiveType.Zip
            ++ " archive from " ++ name ++ ": Directory does not exist: "
            ++ osNotFoundError) fs)
    ∧ (∀ (fs fs2 : FileSystem) dir name p t,
      create_archive fs dir name none = PackResult.ok p t fs2 → t = ArchiveType.Zip) := by
  refine ⟨fun fs dir name => rfl, rfl, fun fs dir name h => ?_,
    fun fs fs2 dir name p t hok => ?_⟩
  · have hcan : canonicalize fs (pathJoin dir name) = Except.error osNotFoundError := by
      unfold canonicalize
      rw [if_neg (by simp [h])]
    simp [create_archive, hcan]
  · unfold create_archive at hok
    cases hcanE : canonicalize fs (pathJoin dir name) with
    | error e =>
      rw [hcanE] at hok
      simp at hok
    | ok d =>
      rw [hcanE] at hok
      simp only [Option.getD_none] at hok
      by_cases hdir : fs.isDir d = true
      · rw [if_pos hdir] at hok
        simp only [create_zip] at hok
        by_cases hz : (fs.lookup (withZipExtension d)).isSome = true
        · rw [if_pos hz] at hok
          simp at hok
        · rw [if_neg hz] at hok
          simp only at hok
          injection hok with h1 h2 h3
          exact h2.symm
      · rw [if_neg hdir] at hok
        simp at hok

/-- C10 witness: on an empty file system the defaulted call fails with the
validation message naming `zip`; on a file system holding `/w/app` the defaulted
call succeeds with resolved type `Zip`. -/
theorem create_archive_default_archive_type_witness :
    create_archive ⟨[]⟩ "/w" "app" none
      = PackResult.err ("Cannot create an " ++ ArchiveType.as_ext ArchiveType.Zip
          ++ " archive from " ++ "app" ++ ": Directory does not exist: "
          ++ osNotFoundError) ⟨[]⟩
    ∧ ArchiveType.Zip = ArchiveType.Zip :=
  ⟨create_archive_default_archive_type.2.2.1 ⟨[]⟩ "/w" "app" (by decide),
   create_archive_default_archive_type.2.2.2 ⟨[("/w/app", FsEntry.dir)]⟩
     ⟨[("/w/app.zip", FsEntry.file []), ("/w/app", FsEntry.dir)]⟩ "/w" "app"
     "/w/app.zip" ArchiveType.Zip (by decide)⟩
